import Mathlib

/-!
Shallow embedding of the IMU_VIZ repository core (backend sample parser,
device data processor, calibration store and applier; frontend calibration
session math) together with theorems checking the specification's claims.

Numbers are modelled by `ℚ` standing for JavaScript's IEEE doubles; the
transcendental library functions (`Math.sqrt`, `Math.asin`, `Math.atan2`,
`Math.sin`, `Math.cos`) and the constant `Math.PI` are abstracted as an
arbitrary interpretation record `RM`, so every theorem quantifies over all
interpretations and pins down an interpretation value pointwise only where a
claim needs a concrete arithmetic fact (e.g. `sqrt 8100 = 90`).
`NaN` results of `Math.asin` outside its domain never arise because the
embedded code's clamping branch (the subject of claim C7) never consults the
`asin` interpretation.
-/

set_option autoImplicit false

namespace IMUViz

/-- Interpretation of the transcendental JavaScript math functions used by the
repository.  Each field stands for the corresponding `Math.*` function
restricted to the rational inputs that actually occur. -/
structure RM where
  sqrt : ℚ → ℚ
  asin : ℚ → ℚ
  atan2 : ℚ → ℚ → ℚ
  sin : ℚ → ℚ
  cos : ℚ → ℚ
  pi : ℚ

/-- Quaternion in the repository's `[x, y, z, w]` component order. -/
structure Quat where
  x : ℚ
  y : ℚ
  z : ℚ
  w : ℚ
  deriving DecidableEq, Repr

/-- Componentwise quaternion addition (used by the averaging loop's sum). -/
def Quat.add (p q : Quat) : Quat := ⟨p.x + q.x, p.y + q.y, p.z + q.z, p.w + q.w⟩

/-- Componentwise quaternion negation (the hemisphere sign flip). -/
def Quat.negQ (q : Quat) : Quat := ⟨-q.x, -q.y, -q.z, -q.w⟩

/-- `Math.sign` on rationals: 1 for positive, -1 for negative, 0 for zero. -/
def jsSign (q : ℚ) : ℚ := if 0 < q then 1 else if q < 0 then -1 else 0

/-- Matrices as JavaScript arrays of arrays of numbers (possibly ragged, as a
client may send any JSON value for a calibration matrix). -/
abbrev Mat : Type := List (List ℚ)

/-- Dot product of two rows, `Σ r[i]*c[i]` over the common length (mathjs only
uses it on equal-length vectors). -/
def dotQ (r c : List ℚ) : ℚ := (List.zipWith (· * ·) r c).sum

/-- Number of columns of a matrix (length of its first row). -/
def colsOf (B : Mat) : ℕ := (B.headD []).length

/-- The `j`-th column of a matrix, reading a missing entry as 0 (such an entry
never occurs on the rectangular matrices mathjs produces). -/
def colOf (B : Mat) (j : ℕ) : List ℚ := B.map (fun row => row.getD j 0)

/-- Matrix product as computed by `math.multiply` on conformable rectangular
matrices: entry `(i,j)` is the dot product of row `i` of `A` with column `j`
of `B`. -/
def matProd (A B : Mat) : Mat :=
  A.map (fun r => (List.range (colsOf B)).map (fun j => dotQ r (colOf B j)))

/-- Size validation mathjs performs on an array-of-arrays: `some (rows, cols)`
for a non-empty rectangular matrix, `none` for `[]` or a ragged array. -/
def matSize (A : Mat) : Option (ℕ × ℕ) :=
  match A with
  | [] => none
  | r :: rs => if rs.all (fun row => row.length = r.length) then
      some (rs.length + 1, r.length)
    else none

/-- `math.multiply` on two matrices: throws (`.error`) unless both arguments
are rectangular and the inner dimensions agree. -/
def mmulJs (A B : Mat) : Except String Mat :=
  match matSize A, matSize B with
  | some p, some q => if p.2 = q.1 then .ok (matProd A B) else .error "DimensionError"
  | _, _ => .error "DimensionError"

/-- `math.multiply` of a matrix and a vector: throws unless the matrix is
rectangular with column count equal to the vector length. -/
def mvmulJs (A : Mat) (v : List ℚ) : Except String (List ℚ) :=
  match matSize A with
  | some p => if p.2 = v.length then .ok (A.map (fun r => dotQ r v)) else .error "DimensionError"
  | none => .error "DimensionError"

/-- `math.transpose` on a rectangular matrix. -/
def transposeMatrix (m : Mat) : Mat :=
  (List.range (colsOf m)).map (fun j => colOf m j)

/-- `quaternionToRotationMatrix` from `frontend/src/utils/mathUtils.js`
(the copy in `backend/calibration-manager.js` is textually identical):
the standard closed-form conversion of an `[x, y, z, w]` quaternion. -/
def quaternionToRotationMatrix (q : Quat) : Mat :=
  [ [1 - 2 * (q.y * q.y + q.z * q.z), 2 * (q.x * q.y - q.z * q.w), 2 * (q.x * q.z + q.y * q.w)],
    [2 * (q.x * q.y + q.z * q.w), 1 - 2 * (q.x * q.x + q.z * q.z), 2 * (q.y * q.z - q.x * q.w)],
    [2 * (q.x * q.z - q.y * q.w), 2 * (q.y * q.z + q.x * q.w), 1 - 2 * (q.x * q.x + q.y * q.y)] ]

/-- Reading `m[i]` in JavaScript and then indexing into it: a missing row is
`undefined` and the subsequent element access throws a `TypeError`. -/
def getRow (m : Mat) (i : ℕ) : Except String (List ℚ) :=
  match m.get? i with
  | some r => .ok r
  | none => .error "TypeError"

/-- `rotationMatrixToQuaternion` (mathUtils.js / calibration-manager.js): the
four-branch numerically-stable extraction.  Accessing an element of a missing
row throws; an out-of-range entry inside an existing row is read as 0 (the
JavaScript value would be `NaN`; no theorem below observes such an entry). -/
def rotationMatrixToQuaternion (F : RM) (m : Mat) : Except String Quat := do
  let r0 ← getRow m 0
  let r1 ← getRow m 1
  let r2 ← getRow m 2
  let e := fun (r : List ℚ) (j : ℕ) => r.getD j 0
  let trace := e r0 0 + e r1 1 + e r2 2
  if 0 < trace then
    let S := F.sqrt (trace + 1) * 2
    pure ⟨(e r2 1 - e r1 2) / S, (e r0 2 - e r2 0) / S, (e r1 0 - e r0 1) / S, 0.25 * S⟩
  else if e r0 0 > e r1 1 ∧ e r0 0 > e r2 2 then
    let S := F.sqrt (1 + e r0 0 - e r1 1 - e r2 2) * 2
    pure ⟨0.25 * S, (e r0 1 + e r1 0) / S, (e r0 2 + e r2 0) / S, (e r2 1 - e r1 2) / S⟩
  else if e r1 1 > e r2 2 then
    let S := F.sqrt (1 + e r1 1 - e r0 0 - e r2 2) * 2
    pure ⟨(e r0 1 + e r1 0) / S, 0.25 * S, (e r1 2 + e r2 1) / S, (e r0 2 - e r2 0) / S⟩
  else
    let S := F.sqrt (1 + e r2 2 - e r0 0 - e r1 1) * 2
    pure ⟨(e r0 2 + e r2 0) / S, (e r1 2 + e r2 1) / S, 0.25 * S, (e r1 0 - e r0 1) / S⟩

/-- `normalizeQuaternion` (mathUtils.js): divide by the magnitude, falling back
to the identity quaternion when the magnitude is exactly zero. -/
def normalizeQuaternion (F : RM) (q : Quat) : Quat :=
  let magnitude := F.sqrt (q.x * q.x + q.y * q.y + q.z * q.z + q.w * q.w)
  if magnitude = 0 then ⟨0, 0, 0, 1⟩
  else ⟨q.x / magnitude, q.y / magnitude, q.z / magnitude, q.w / magnitude⟩

/-- The sign-corrected summand of the averaging loop in
`calculateAverageQuaternion`: the quaternion is negated when its w-component
is negative. -/
def signCorrected (q : Quat) : Quat := if q.w < 0 then q.negQ else q

/-- `calculateAverageQuaternion` (mathUtils.js): hemisphere-corrected linear
mean — accumulate the sign-corrected components, then normalize.  An empty
input returns the identity quaternion. -/
def calculateAverageQuaternion (F : RM) (qs : List Quat) : Quat :=
  if qs.length = 0 then ⟨0, 0, 0, 1⟩
  else normalizeQuaternion F (qs.foldl (fun s q => s.add (signCorrected q)) ⟨0, 0, 0, 0⟩)

/-- `inverseQuaternion` (conjugate). -/
def inverseQuaternion (q : Quat) : Quat := ⟨-q.x, -q.y, -q.z, q.w⟩

/-- `quaternionMultiply` (mathUtils.js / calibration-manager.js). -/
def quaternionMultiply (q1 q2 : Quat) : Quat :=
  ⟨q1.w * q2.x + q1.x * q2.w + q1.y * q2.z - q1.z * q2.y,
   q1.w * q2.y - q1.x * q2.z + q1.y * q2.w + q1.z * q2.x,
   q1.w * q2.z + q1.x * q2.y - q1.y * q2.x + q1.z * q2.w,
   q1.w * q2.w - q1.x * q2.x - q1.y * q2.y - q1.z * q2.z⟩

/-- The pitch argument `sinp = 2*(w*y - z*x)` of the Euler conversion. -/
def sinpOf (q : Quat) : ℚ := 2 * (q.w * q.y - q.z * q.x)

/-- `quaternionToEuler` from mathUtils.js (identical in
calibration-manager.js): roll/pitch/yaw in degrees, with the gimbal-lock
clamp `pitch = Math.sign(sinp) * 90` when `|sinp| >= 1`. -/
def quaternionToEuler (F : RM) (q : Quat) : List ℚ :=
  let sinr_cosp := 2 * (q.w * q.x + q.y * q.z)
  let cosr_cosp := 1 - 2 * (q.x * q.x + q.y * q.y)
  let roll := F.atan2 sinr_cosp cosr_cosp * 180 / F.pi
  let sinp := sinpOf q
  let pitch := if 1 ≤ |sinp| then jsSign sinp * 90 else F.asin sinp * 180 / F.pi
  let siny_cosp := 2 * (q.w * q.z + q.x * q.y)
  let cosy_cosp := 1 - 2 * (q.y * q.y + q.z * q.z)
  let yaw := F.atan2 siny_cosp cosy_cosp * 180 / F.pi
  [roll, pitch, yaw]

/-! ### Sample parser (`backend/data-parser.js`)

Wire payloads are modelled as `List Char`.  A JavaScript number that is the
result of `parseFloat` is `Option JsNum`: `none` stands for `NaN`, and the
non-finite values `±Infinity` are explicit, since the two parsers treat them
differently (`parseIOSMessage` filters with `isFinite`, `parseARGlassesMessage`
only checks `isNaN`). -/

/-- Result of `parseFloat` when it is not `NaN`. -/
inductive JsNum where
  | fin (q : ℚ)
  | inf
  | negInf
  deriving DecidableEq, Repr

/-- Whitespace characters recognised by `String.prototype.trim` and by the
`\s` regex class (ASCII fragment; the repository's payloads are ASCII). -/
def isWsChar (c : Char) : Bool :=
  c = ' ' || c = '\t' || c = '\n' || c = '\r' || c = '\x0b' || c = '\x0c'

/-- `String.prototype.trim`. -/
def jsTrim (s : List Char) : List Char :=
  ((s.dropWhile isWsChar).reverse.dropWhile isWsChar).reverse

/-- `String.prototype.toLowerCase` (ASCII fragment). -/
def jsToLower (s : List Char) : List Char := s.map Char.toLower

/-- `String.prototype.split` with a single-character separator, keeping empty
segments, before any limit is applied: `"a;;b" ↦ ["a", "", "b"]`,
`"" ↦ [""]`. -/
def splitOnPred (p : Char → Bool) (s : List Char) : List (List Char) :=
  s.foldr (fun c acc =>
    match acc with
    | t :: ts => if p c then [] :: t :: ts else (c :: t) :: ts
    | [] => [[c]]) [[]]

/-- `split(sep)` for a literal one-character separator. -/
def splitOnChar (sep : Char) (s : List Char) : List (List Char) :=
  splitOnPred (fun c => c = sep) s

/-- `split(/\s+/)` as used in the parser, which always applies it to a trimmed
string: maximal non-whitespace runs, or the single empty token for the empty
string (JavaScript's `"".split(/\s+/)` is `[""]`). -/
def wsTokens (s : List Char) : List (List Char) :=
  let parts := (splitOnPred isWsChar s).filter (fun t => !t.isEmpty)
  if parts.isEmpty then [[]] else parts

/-- Value of a digit string. -/
def digitsToNat (ds : List Char) : ℕ :=
  ds.foldl (fun n c => 10 * n + (c.toNat - Char.toNat '0')) 0

/-- The exponent part consumed by `parseFloat` after the mantissa: `e`/`E`,
optional sign, digits; an incomplete exponent contributes nothing
(`parseFloat("1e") = 1`). -/
def expOf (r2 : List Char) : ℤ :=
  match r2 with
  | c :: rest =>
    if c = 'e' || c = 'E' then
      let esign : ℤ := match rest with
        | '-' :: _ => -1
        | _ => 1
      let er := match rest with
        | '+' :: q => q
        | '-' :: q => q
        | _ => rest
      let ed := er.takeWhile Char.isDigit
      if ed.isEmpty then 0 else esign * (digitsToNat ed : ℤ)
    else 0
  | [] => 0

/-- `parseFloat`: skip leading whitespace, optional sign, then the longest
decimal-literal prefix (`digits`, `digits.digits`, `.digits`, optional
exponent) or the literal `Infinity`; anything else is `NaN` (`none`).
Values are exact rationals — the double rounding JavaScript performs is not
modelled and no claim depends on it. -/
def jsParseFloat (s : List Char) : Option JsNum :=
  let t := s.dropWhile isWsChar
  let neg : Bool := match t with
    | '-' :: _ => true
    | _ => false
  let r := match t with
    | '+' :: rest => rest
    | '-' :: rest => rest
    | _ => t
  if r.take 8 = ['I', 'n', 'f', 'i', 'n', 'i', 't', 'y'] then
    some (if neg then JsNum.negInf else JsNum.inf)
  else
    let ip := r.takeWhile Char.isDigit
    let r1 := r.drop ip.length
    let fp := match r1 with
      | '.' :: rest => rest.takeWhile Char.isDigit
      | _ => []
    let r2 := match r1 with
      | '.' :: rest => rest.drop fp.length
      | _ => r1
    if ip.isEmpty && fp.isEmpty then none
    else
      let mag : ℚ := (digitsToNat ip : ℚ) + (digitsToNat fp : ℚ) / ((10 : ℚ) ^ fp.length)
      let mant : ℚ := if neg then -mag else mag
      some (JsNum.fin (mant * (10 : ℚ) ^ expOf r2))

/-- The provisional record returned by `parseIOSMessage`.  The parser never
sets a `has_gyro` property on it, which is recorded by the field being
`Option Bool` and always `none` (reading the absent property in JavaScript
yields `undefined`). -/
structure IOSRaw where
  device_id : List Char
  device_name : List Char
  timestamps : List ℚ
  accelerometer : List ℚ
  quaternion : List ℚ
  gyroscope : List ℚ
  has_gyro : Option Bool
  raw_message : List Char
  deriving DecidableEq, Repr

/-- The structural phase of `parseIOSMessage`: trim, require a non-empty
message containing `;` and `:`, split off the device id (`split(';', 2)`) and
the lower-cased device type (`split(':', 2)`), returning the remaining data
string.  `none` models every `return null` on this path. -/
def iosParts (message : List Char) : Option (List Char × List Char × List Char) :=
  if (jsTrim message).isEmpty || !(jsTrim message).contains ';' ||
      !(jsTrim message).contains ':' then none
  else
    match (splitOnChar ';' (jsTrim message)).take 2 with
    | [deviceIdStr, rawDataStr] =>
      match (splitOnChar ':' rawDataStr).take 2 with
      | [dt, dataStr] => some (deviceIdStr, jsToLower dt, dataStr)
      | _ => none
    | _ => none

/-- The numeric phase of `parseIOSMessage`: split the data string on
whitespace and keep, in order, exactly the tokens whose `parseFloat` value is
neither `NaN` nor infinite (`!isNaN(value) && isFinite(value)`); unparsable
tokens are skipped, not rejected. -/
def iosDataValues (dataStr : List Char) : List ℚ :=
  (wsTokens (jsTrim dataStr)).filterMap (fun v =>
    match jsParseFloat v with
    | some (JsNum.fin q) => some q
    | _ => none)

/-- `parseIOSMessage` (`backend/data-parser.js`): `none` models `null`.  The
function body is wrapped in `try/catch` in the source; the embedding is total,
so no exception can escape. -/
def parseIOSMessage (message : List Char) : Option IOSRaw :=
  match iosParts message with
  | none => none
  | some (deviceIdStr, deviceType, dataStr) =>
    let dataValues := iosDataValues dataStr
    if dataValues.length < 9 then none
    else some {
      device_id := deviceIdStr
      device_name := deviceType
      timestamps := dataValues.take 2
      accelerometer := (dataValues.drop 2).take 3
      quaternion := (dataValues.drop 5).take 4
      gyroscope := if 12 ≤ dataValues.length then (dataValues.drop 9).take 3 else [0, 0, 0]
      has_gyro := none
      raw_message := jsTrim message }

/-- The record returned by `parseARGlassesMessage`.  Its numeric fields hold
`JsNum` because this parser only rejects `NaN` values and accepts
`±Infinity`. -/
structure ARRaw where
  device_name : List Char
  timestamps : List JsNum
  accelerometer : List JsNum
  quaternion : List JsNum
  gyroscope : List JsNum
  raw_message : List Char
  deriving DecidableEq, Repr

/-- The `for` loops of `parseARGlassesMessage` over a slice of tokens: parse
each token, returning `null` (`none`) as soon as one parses to `NaN`. -/
def parseAll : List (List Char) → Option (List JsNum)
  | [] => some []
  | x :: xs =>
    match jsParseFloat x with
    | none => none
    | some v =>
      match parseAll xs with
      | none => none
      | some vs => some (v :: vs)

/-- Body of `parseARGlassesMessage` once the message has been split into
whitespace tokens: require at least 9 tokens, reject (`none` = `null`) when
any of the two timestamps, four quaternion or three accelerometer fields
parses to `NaN`; gyroscope fields (only read when at least 12 tokens are
present) fall back to 0 individually. -/
def parseARFrom (message : List Char) (parts : List (List Char)) : Option ARRaw :=
  if parts.length < 9 then none
  else
    match jsParseFloat (parts.getD 0 []), jsParseFloat (parts.getD 1 []) with
    | some timestamp, some deviceTimestamp =>
      match parseAll ((parts.drop 2).take 4), parseAll ((parts.drop 6).take 3) with
      | some quaternion, some accelerometer =>
        some {
          device_name := "glasses".data
          timestamps := [timestamp, deviceTimestamp]
          accelerometer := accelerometer
          quaternion := quaternion
          gyroscope :=
            if 12 ≤ parts.length then
              (List.range 3).map (fun k =>
                match jsParseFloat (parts.getD (9 + k) []) with
                | some v => v
                | none => JsNum.fin 0)
            else [JsNum.fin 0, JsNum.fin 0, JsNum.fin 0]
          raw_message := message }
      | _, _ => none
    | _, _ => none

/-- `parseARGlassesMessage` (`backend/data-parser.js`): whitespace-split the
trimmed message and run the token-level body.  Total, so no exception can
escape. -/
def parseARGlassesMessage (message : List Char) : Option ARRaw :=
  parseARFrom message (wsTokens (jsTrim message))

/-! ### Device data processor (`backend/data-processor.js`)

Only the iOS branch of `processDeviceData` is needed by the claims; it is
embedded together with the validation step it performs first. -/

/-- `validateSensorData` (`backend/data-parser.js`) specialised to the record
shape produced by `parseIOSMessage`: the required fields always exist in the
typed embedding, the length checks are real, and the NaN/Infinity scan is
vacuous because `parseIOSMessage` only stores finite values. -/
def validateSensorData (d : IOSRaw) : Bool :=
  d.accelerometer.length = 3 && d.quaternion.length = 4

/-- JavaScript array destructuring `[x, y, z, w] = q` for a quaternion array;
only applied after validation has established length 4. -/
def toQuat (l : List ℚ) : Quat := ⟨l.getD 0 0, l.getD 1 0, l.getD 2 0, l.getD 3 0⟩

/-- `DataProcessor.getDeviceIndex`: name normalisation followed by the device
index table (`phone ↦ 0`, `watch ↦ 1`, `headphone ↦ 2`, `glasses ↦ 2`). -/
def dpGetDeviceIndex (deviceName : List Char) : Option ℕ :=
  let n := jsToLower deviceName
  if n = "phone".data || n = "iphone".data then some 0
  else if n = "watch".data || n = "applewatch".data then some 1
  else if n = "headphone".data || n = "airpods".data then some 2
  else if n = "glasses".data || n = "arglasses".data then some 2
  else none

/-- `DataProcessor.quaternionToEulerRadians`: roll/pitch/yaw in radians with
the gimbal-lock clamp `Math.sign(sinp) * Math.PI / 2`. -/
def quaternionToEulerRadians (F : RM) (q : Quat) : List ℚ :=
  let sinr_cosp := 2 * (q.w * q.x + q.y * q.z)
  let cosr_cosp := 1 - 2 * (q.x * q.x + q.y * q.y)
  let roll := F.atan2 sinr_cosp cosr_cosp
  let sinp := sinpOf q
  let pitch := if 1 ≤ |sinp| then jsSign sinp * F.pi / 2 else F.asin sinp
  let siny_cosp := 2 * (q.w * q.z + q.x * q.y)
  let cosy_cosp := 1 - 2 * (q.y * q.y + q.z * q.z)
  let yaw := F.atan2 siny_cosp cosy_cosp
  [roll, pitch, yaw]

/-- `DataProcessor.quaternionToEuler`: the radian conversion above followed by
a degree conversion of each component. -/
def dpQuaternionToEuler (F : RM) (q : Quat) : List ℚ :=
  (quaternionToEulerRadians F q).map (fun v => v * 180 / F.pi)

/-- `DataProcessor.eulerToQuaternion` on a `[roll, pitch, yaw]` array. -/
def eulerToQuaternion (F : RM) (euler : List ℚ) : Quat :=
  let roll := euler.getD 0 0
  let pitch := euler.getD 1 0
  let yaw := euler.getD 2 0
  let cr := F.cos (roll * 0.5)
  let sr := F.sin (roll * 0.5)
  let cp := F.cos (pitch * 0.5)
  let sp := F.sin (pitch * 0.5)
  let cy := F.cos (yaw * 0.5)
  let sy := F.sin (yaw * 0.5)
  ⟨sr * cp * cy - cr * sp * sy,
   cr * sp * cy + sr * cp * sy,
   cr * cp * sy - sr * sp * cy,
   cr * cp * cy + sr * sp * sy⟩

/-- `DataProcessor.applyIOSTransformations`: only the headphone/AirPods class
is remapped (Euler round-trip with permuted, sign-flipped axes and the
matching accelerometer permutation); all other device names pass through.
Returns `(processedAcc, processedQuat)`. -/
def applyIOSTransformations (F : RM) (deviceName : List Char) (accelerometer : List ℚ)
    (quaternion : Quat) : List ℚ × Quat :=
  if deviceName = "headphone".data then
    let euler := quaternionToEulerRadians F quaternion
    let fixedEuler := [euler.getD 0 0 * (-1), euler.getD 2 0, euler.getD 1 0]
    ([accelerometer.getD 0 0 * (-1), accelerometer.getD 2 0, accelerometer.getD 1 0],
     eulerToQuaternion F fixedEuler)
  else (accelerometer, quaternion)

/-- The processed sample delivered downstream (shape of `processIOSData`'s
return value; `linear_acceleration` is only populated on the AR-glasses path,
which no claim exercises). -/
structure Sample where
  device_id : ℕ
  device_name : List Char
  device_type : List Char
  timestamp : ℚ
  accelerometer : List ℚ
  gyroscope : List ℚ
  has_gyro : Bool
  quaternion : Quat
  raw_quaternion : Quat
  euler : List ℚ
  linear_acceleration : Option (List ℚ)
  deriving DecidableEq

/-- `DataProcessor.processIOSData`.  `hasGyro` embeds the source's
`!!rawData.has_gyro`: `parseIOSMessage` never sets a `has_gyro` property on
the raw record, so the read yields `undefined` and the double negation yields
`false`. -/
def processIOSData (F : RM) (rawData : IOSRaw) : Option Sample :=
  let deviceName := jsToLower rawData.device_name
  let quaternion := toQuat rawData.quaternion
  let hasGyro := rawData.has_gyro.getD false
  match dpGetDeviceIndex deviceName with
  | none => none
  | some deviceId =>
    let p := applyIOSTransformations F deviceName rawData.accelerometer quaternion
    some {
      device_id := deviceId
      device_name := deviceName
      device_type := "ios".data
      timestamp := rawData.timestamps.getD 0 0
      accelerometer := p.1
      gyroscope := rawData.gyroscope
      has_gyro := hasGyro
      quaternion := p.2
      raw_quaternion := quaternion
      euler := dpQuaternionToEuler F p.2
      linear_acceleration := none }

/-- `DataProcessor.processDeviceData` specialised to `deviceType = "ios"`:
validation followed by the iOS processing branch. -/
def processDeviceData (F : RM) (rawData : IOSRaw) : Option Sample :=
  if !validateSensorData rawData then none else processIOSData F rawData

/-! ### Calibration store and applier (`backend/calibration-manager.js`)

The per-client store is a function from client ids to optional calibration
records; the maps inside a record are functions from device keys, which is
how a JavaScript object lookup behaves.  Matrices inside a record come from
client JSON and may have any shape. -/

/-- A stored calibration record (`CalibrationManager.setCalibration` /
`setTPoseCalibration`). -/
structure CalRecord where
  smpl2imu : Option Mat
  referenceDeviceId : List Char
  referenceWorldQuat : Quat
  device2boneMatrices : List Char → Option Mat
  accOffsets : List Char → Option (List ℚ)
  linearAccOffsets : List Char → Option (List ℚ)
  isTPoseCalibrated : Bool
  timestamp : ℤ

/-- The calibration store: one optional record per client id. -/
abbrev Store : Type := List Char → Option CalRecord

/-- The payload of a `tpose_calibration` message (`message.data`); the offset
maps may be absent, in which case the source substitutes `{}`. -/
structure TPoseData where
  device2boneMatrices : List Char → Option Mat
  accOffsets : Option (List Char → Option (List ℚ))
  linearAccOffsets : Option (List Char → Option (List ℚ))

/-- `CalibrationManager.setTPoseCalibration`: mutate the client's record in
place when it exists (`if (calibration)`), otherwise do nothing. -/
def setTPoseCalibration (clientId : List Char) (tposeData : TPoseData) (st : Store) : Store :=
  match st clientId with
  | none => st
  | some calibration => fun k =>
      if k = clientId then
        some { calibration with
          device2boneMatrices := tposeData.device2boneMatrices
          accOffsets := tposeData.accOffsets.getD (fun _ => none)
          linearAccOffsets := tposeData.linearAccOffsets.getD (fun _ => none)
          isTPoseCalibrated := true }
      else st k

/-- `CalibrationManager.clearCalibration` — the handler of a
`reset_calibration` message (`server.js`): delete the client's record. -/
def clearCalibration (clientId : List Char) (st : Store) : Store :=
  fun k => if k = clientId then none else st k

/-- The device key `` `${device_name}_${device_id}` `` used by
`applyCalibration`. -/
def deviceKeyOf (d : Sample) : List Char :=
  d.device_name ++ '_' :: (Nat.repr d.device_id).data

/-- `CalibrationManager.getVisualizationQuaternion`: the orientation relative
to the calibration-time reference pose. -/
def getVisualizationQuaternion (worldQuaternion : Quat) (referenceQuat : Quat) : Quat :=
  quaternionMultiply (inverseQuaternion referenceQuat) worldQuaternion

/-- The world-frame fields `applyCalibration` adds to a sample (spread into
the returned object together with `isCalibrated: true`, which the embedding
represents by the fields being present at all). -/
structure AugData where
  worldFrameQuaternion : Quat
  worldFrameQuatForViz : Quat
  worldFrameAccelerometer : List ℚ
  worldFrameLinearAcceleration : Option (List ℚ)
  worldFrameEuler : List ℚ
  hasAccOffset : Bool
  hasLinearAccOffset : Bool
  deriving DecidableEq

/-- The `try` block of `CalibrationManager.applyCalibration` (steps 2–7 of the
spec): every JavaScript statement that can throw — the mathjs multiplications
and the row accesses of `rotationMatrixToQuaternion` — is in the `Except`
monad, so `.error` models a raised exception reaching the `catch`. -/
def tryBody (F : RM) (calibration : CalRecord) (M : Mat) (deviceData : Sample) :
    Except String AugData := do
  let deviceKey := deviceKeyOf deviceData
  let device2bone := calibration.device2boneMatrices deviceKey
  let rotMatrix := quaternionToRotationMatrix deviceData.quaternion
  let w0 ← mmulJs M rotMatrix
  let worldRotMatrix ← match device2bone with
    | some d2b => mmulJs w0 d2b
    | none => pure w0
  let worldQuaternion ← rotationMatrixToQuaternion F worldRotMatrix
  let accTransformMatrix ← mmulJs M rotMatrix
  let wAcc ← mvmulJs accTransformMatrix deviceData.accelerometer
  let worldAccelerometer := match calibration.accOffsets deviceKey with
    | some off =>
      [wAcc.getD 0 0 - off.getD 0 0, wAcc.getD 1 0 - off.getD 1 0, wAcc.getD 2 0 - off.getD 2 0]
    | none => wAcc
  let worldLinearAcceleration ← match deviceData.linear_acceleration with
    | some la => do
        let wla ← mvmulJs accTransformMatrix la
        pure (some (match calibration.linearAccOffsets deviceKey with
          | some off =>
            [wla.getD 0 0 - off.getD 0 0, wla.getD 1 0 - off.getD 1 0,
             wla.getD 2 0 - off.getD 2 0]
          | none => wla))
    | none => pure none
  let worldEuler := quaternionToEuler F worldQuaternion
  let worldFrameQuatForViz :=
    getVisualizationQuaternion worldQuaternion calibration.referenceWorldQuat
  pure {
    worldFrameQuaternion := worldQuaternion
    worldFrameQuatForViz := worldFrameQuatForViz
    worldFrameAccelerometer := worldAccelerometer
    worldFrameLinearAcceleration := worldLinearAcceleration
    worldFrameEuler := worldEuler
    hasAccOffset := (calibration.accOffsets deviceKey).isSome
    hasLinearAccOffset := (calibration.linearAccOffsets deviceKey).isSome }

/-- `CalibrationManager.applyCalibration`: pass the sample through unchanged
(`(deviceData, none)`) when the client has no record or no `smpl2imu`, or when
the `try` block raises; otherwise return the sample augmented with the
world-frame fields.  Total: no exception propagates to the fan-out loop. -/
def applyCalibration (F : RM) (st : Store) (clientId : List Char) (deviceData : Sample) :
    Sample × Option AugData :=
  match st clientId with
  | none => (deviceData, none)
  | some calibration =>
    match calibration.smpl2imu with
    | none => (deviceData, none)
    | some M =>
      match tryBody F calibration M deviceData with
      | .ok aug => (deviceData, some aug)
      | .error _ => (deviceData, none)

/-! ### Calibration session (`frontend/src/components/CalibrationPanel.js`)

The sample-collection timers are outside the embedding; the processing
functions that run at window end are embedded as pure functions of the
collected samples.  The completion callbacks (`onCalibrationComplete`,
`onTPoseCalibrationComplete`) are external collaborators and may raise, which
is how an exception can occur inside the `try` blocks of the processing
functions. -/

/-- The `calibrationStep` values used by `CalibrationPanel.js`. -/
inductive CalStep where
  | idle
  | worldFrame
  | inProgress
  | worldFrameComplete
  | tposeCountdown
  | tposeInProgress
  | complete
  deriving DecidableEq, Repr

/-- A collected world-frame sample (`{quaternion, accelerometer}`). -/
structure WFSample where
  quaternion : Quat
  accelerometer : List ℚ
  deriving DecidableEq

/-- The world-frame calibration data sent to the parent on completion. -/
structure WFCalib where
  smpl2imu : Mat
  referenceDeviceId : List Char
  referenceWorldQuat : Quat
  isCalibrated : Bool
  deriving DecidableEq

/-- `processWorldFrameSamples`: zero collected samples abort to `idle` with no
calibration data; otherwise the averaged quaternion is converted to a rotation
matrix whose transpose becomes `smpl2imu`, the data is handed to the parent
callback, and the step becomes `worldFrameComplete` (or `idle` again if the
callback raises inside the `try` block).  The second component is the
calibration data constructed by the function, independent of the callback's
fate. -/
def processWorldFrameSamples (F : RM) (selectedDevice : List Char)
    (onCalibrationComplete : WFCalib → Except String Unit)
    (samples : List WFSample) : CalStep × Option WFCalib :=
  if samples.length = 0 then (CalStep.idle, none)
  else
    let avgQuaternion := calculateAverageQuaternion F (samples.map (fun s => s.quaternion))
    let rotationMatrix := quaternionToRotationMatrix avgQuaternion
    let smpl2imu := transposeMatrix rotationMatrix
    let calibrationData : WFCalib := {
      smpl2imu := smpl2imu
      referenceDeviceId := selectedDevice
      referenceWorldQuat := avgQuaternion
      isCalibrated := true }
    match onCalibrationComplete calibrationData with
    | .ok _ => (CalStep.worldFrameComplete, some calibrationData)
    | .error _ => (CalStep.idle, some calibrationData)

/-- A collected T-pose sample for one device. -/
structure TPSample where
  quaternion : Quat
  worldFrameQuaternion : Quat
  deriving DecidableEq

/-- The T-pose calibration data sent to the parent on completion. -/
structure TPoseResult where
  device2boneMatrices : List (List Char × Mat)
  isTPoseCalibrated : Bool

/-- The `device2boneMatrices` map built by `processTPoseSamples`: per device
with at least one collected sample, the transpose of the rotation matrix of
its averaged world-frame quaternion. -/
def computeDevice2Bone (F : RM) (tposeSamples : List (List Char × List TPSample)) :
    List (List Char × Mat) :=
  tposeSamples.filterMap (fun p =>
    if 0 < p.2.length then
      some (p.1, transposeMatrix (quaternionToRotationMatrix
        (calculateAverageQuaternion F (p.2.map (fun s => s.worldFrameQuaternion)))))
    else none)

/-- The session state visible around `processTPoseSamples`: the panel's step
together with the world-frame calibration already installed at the parent.
The function can only influence the latter through its callback, which the
`catch` branch never invokes. -/
structure CalSession where
  step : CalStep
  worldCalib : Option WFCalib

/-- `processTPoseSamples`: build the device-to-bone matrices, hand them to the
parent callback, and set the step to `complete`; if anything inside the `try`
block raises (the callback being the external collaborator that can), the
`catch` sets the step back to `worldFrameComplete` — not `idle` — and touches
nothing else. -/
def processTPoseSamples (F : RM)
    (onTPoseCalibrationComplete : TPoseResult → Except String Unit)
    (tposeSamples : List (List Char × List TPSample)) (sess : CalSession) : CalSession :=
  let result : TPoseResult := {
    device2boneMatrices := computeDevice2Bone F tposeSamples
    isTPoseCalibrated := true }
  match onTPoseCalibrationComplete result with
  | .ok _ => { sess with step := CalStep.complete }
  | .error _ => { sess with step := CalStep.worldFrameComplete }

/-- Modelled from the spec (§4.4 quaternion averaging), for comparison with
the source's `calculateAverageQuaternion`: flip the sign of each quaternion
whose w-component is negative, then sum component-wise. -/
def specHemisphereSum (qs : List Quat) : Quat :=
  (qs.map (fun q => if q.w < 0 then q.negQ else q)).foldr Quat.add ⟨0, 0, 0, 0⟩

/-! ### Statement shorthands for the applier's transform (claim C2) -/

/-- The world rotation the applier is specified to produce: `smpl2imu × rot`,
post-multiplied by the device-to-bone matrix exactly when one is stored for
the sample's device key. -/
def worldRotOf (cal : CalRecord) (M : Mat) (s : Sample) : Mat :=
  match cal.device2boneMatrices (deviceKeyOf s) with
  | some D => matProd (matProd M (quaternionToRotationMatrix s.quaternion)) D
  | none => matProd M (quaternionToRotationMatrix s.quaternion)

/-- `(smpl2imu × rot) × accelerometer` — the acceleration transform, to which
the device-to-bone matrix is never applied. -/
def accBase (M : Mat) (s : Sample) : List ℚ :=
  (matProd M (quaternionToRotationMatrix s.quaternion)).map (fun r => dotQ r s.accelerometer)

/-- The same transform applied to a linear-acceleration vector. -/
def linBase (M : Mat) (s : Sample) (la : List ℚ) : List ℚ :=
  (matProd M (quaternionToRotationMatrix s.quaternion)).map (fun r => dotQ r la)

/-- Component-wise subtraction of a stored 3-vector offset. -/
def subOffset3 (w off : List ℚ) : List ℚ :=
  [w.getD 0 0 - off.getD 0 0, w.getD 1 0 - off.getD 1 0, w.getD 2 0 - off.getD 2 0]

/-! ### Concrete fixtures used by the witness theorems -/

/-- A concrete interpretation of the transcendental functions (their values
are irrelevant to the structural facts the witnesses check). -/
def F0 : RM :=
  { sqrt := fun _ => 0, asin := fun _ => 0, atan2 := fun _ _ => 0,
    sin := fun _ => 0, cos := fun _ => 0, pi := 0 }

/-- An interpretation whose `sqrt` is correct at the two perfect squares the
averaging witnesses reach (`sqrt 8100 = 90`, `sqrt 4 = 2`), as IEEE `Math.sqrt`
is. -/
def F1 : RM :=
  { sqrt := fun x => if x = 8100 then 90 else if x = 4 then 2 else 0,
    asin := fun _ => 0, atan2 := fun _ _ => 0,
    sin := fun _ => 0, cos := fun _ => 0, pi := 0 }

/-- The identity 3×3 matrix. -/
def idMat3 : Mat := [[1, 0, 0], [0, 1, 0], [0, 0, 1]]

/-- A concrete processed sample (a stationary phone). -/
def sampleA : Sample :=
  { device_id := 0, device_name := "phone".data, device_type := "ios".data,
    timestamp := 0, accelerometer := [0, 0, (981 : ℚ)/100], gyroscope := [0, 0, 0],
    has_gyro := false, quaternion := ⟨0, 0, 0, 1⟩, raw_quaternion := ⟨0, 0, 0, 1⟩,
    euler := [0, 0, 0], linear_acceleration := none }

/-- A concrete AR-glasses-style sample that carries a linear acceleration. -/
def sampleB : Sample :=
  { sampleA with
    device_name := "headphone".data
    device_id := 2
    linear_acceleration := some [0, 0, 1] }

/-- A calibration record whose `smpl2imu` is a malformed 2×2 matrix, as a
client is free to send. -/
def recBad : CalRecord :=
  { smpl2imu := some [[1, 2], [3, 4]], referenceDeviceId := [],
    referenceWorldQuat := ⟨0, 0, 0, 1⟩, device2boneMatrices := fun _ => none,
    accOffsets := fun _ => none, linearAccOffsets := fun _ => none,
    isTPoseCalibrated := false, timestamp := 0 }

/-- A store holding the malformed record for client `"c"`. -/
def storeBad : Store := fun k => if k = "c".data then some recBad else none

/-- A fully well-formed calibration record: identity `smpl2imu`, identity
device-to-bone matrix for every device, and offsets for every device. -/
def recGood : CalRecord :=
  { smpl2imu := some idMat3, referenceDeviceId := "phone_0".data,
    referenceWorldQuat := ⟨0, 0, 0, 1⟩, device2boneMatrices := fun _ => some idMat3,
    accOffsets := fun _ => some [1, 1, 1], linearAccOffsets := fun _ => some [2, 2, 2],
    isTPoseCalibrated := true, timestamp := 0 }

/-- A store holding the well-formed record for client `"c"`. -/
def storeGood : Store := fun k => if k = "c".data then some recGood else none

/-- The 12-field iOS payload exercising the gyroscope path. -/
def msgC6 : List Char := "dev1;phone:100 200 0.5 0.6 9.8 0 0 0 1 0.1 0.2 0.3".data

/-- A store with no record at all. -/
def emptyStore : Store := fun _ => none

/-- A T-pose payload with no offset maps. -/
def tdEmpty : TPoseData :=
  { device2boneMatrices := fun _ => none, accOffsets := none, linearAccOffsets := none }

/-- A callback that always raises. -/
def cbRaise : TPoseResult → Except String Unit := fun _ => .error "boom"

/-- A world-frame callback that always succeeds. -/
def cbOk : WFCalib → Except String Unit := fun _ => .ok ()

/-- A session that has completed world-frame calibration and holds it. -/
def sessWF : CalSession :=
  { step := CalStep.tposeInProgress,
    worldCalib := some { smpl2imu := idMat3, referenceDeviceId := "phone_0".data,
                         referenceWorldQuat := ⟨0, 0, 0, 1⟩, isCalibrated := true } }

/-! ### Helper lemmas -/

theorem quatAdd_assoc (a b c : Quat) : (a.add b).add c = a.add (b.add c) := by
  cases a; cases b; cases c; simp [Quat.add, add_assoc]

theorem quatAdd_zero (a : Quat) : a.add ⟨0, 0, 0, 0⟩ = a := by
  cases a; simp [Quat.add]

theorem quatZero_add (a : Quat) : Quat.add ⟨0, 0, 0, 0⟩ a = a := by
  cases a; simp [Quat.add]

theorem specHemisphereSum_cons (q : Quat) (qs : List Quat) :
    specHemisphereSum (q :: qs) = (signCorrected q).add (specHemisphereSum qs) := by
  simp [specHemisphereSum, signCorrected]

theorem foldl_signCorrected (qs : List Quat) (s : Quat) :
    qs.foldl (fun t q => t.add (signCorrected q)) s = s.add (specHemisphereSum qs) := by
  induction qs generalizing s with
  | nil => simp [specHemisphereSum, quatAdd_zero]
  | cons q qs ih =>
    rw [List.foldl_cons, ih, specHemisphereSum_cons, quatAdd_assoc]

theorem calculateAverageQuaternion_eq_spec (F : RM) (qs : List Quat) (h : qs ≠ []) :
    calculateAverageQuaternion F qs = normalizeQuaternion F (specHemisphereSum qs) := by
  unfold calculateAverageQuaternion
  rw [if_neg (by simpa using h), foldl_signCorrected, quatZero_add]

theorem matSize_spec {A : Mat} {n m : ℕ} (hA : matSize A = some (n, m)) :
    A.length = n ∧ ∀ r ∈ A, r.length = m := by
  cases A with
  | nil => simp [matSize] at hA
  | cons r rs =>
    by_cases hall : rs.all (fun row => row.length = r.length)
    · simp only [matSize, if_pos hall, Option.some.injEq, Prod.mk.injEq] at hA
      obtain ⟨hn, hm⟩ := hA
      refine ⟨by simp [← hn], ?_⟩
      intro x hx
      rcases List.mem_cons.mp hx with rfl | hx2
      · exact hm
      · have hx3 := List.all_eq_true.mp hall x hx2
        simp only [decide_eq_true_eq] at hx3
        rw [hx3, hm]
    · simp [matSize, hall] at hA

theorem matSize_of_forall {A : Mat} {c : ℕ} (hne : A ≠ []) (h : ∀ r ∈ A, r.length = c) :
    matSize A = some (A.length, c) := by
  cases A with
  | nil => exact absurd rfl hne
  | cons r rs =>
    have hr : r.length = c := h r (by simp)
    have hall : rs.all (fun row => row.length = r.length) = true := by
      rw [List.all_eq_true]
      intro x hx
      have hx2 := h x (by simp [hx])
      simp [hx2, hr]
    have hms : matSize (r :: rs) = some (rs.length + 1, r.length) := by
      have hstep : matSize (r :: rs) =
          if (rs.all fun row => row.length = r.length) = true then
            some (rs.length + 1, r.length)
          else none := rfl
      rw [hstep, if_pos hall]
    rw [hms, hr]
    simp

theorem matSize_matProd {A B : Mat} {n m k : ℕ} (hA : matSize A = some (n, m))
    (hB : matSize B = some (m, k)) : matSize (matProd A B) = some (n, k) := by
  obtain ⟨hAlen, _⟩ := matSize_spec hA
  have hcols : colsOf B = k := by
    cases B with
    | nil => simp [matSize] at hB
    | cons rb rbs =>
      have hrb := (matSize_spec hB).2 rb (by simp)
      simpa [colsOf] using hrb
  have hne : A ≠ [] := by
    rintro rfl
    simp [matSize] at hA
  have h1 : matProd A B ≠ [] := by
    simp only [matProd, ne_eq, List.map_eq_nil_iff]
    exact hne
  have h2 : ∀ row ∈ matProd A B, row.length = k := by
    intro row hrow
    simp only [matProd, List.mem_map] at hrow
    obtain ⟨a, _, rfl⟩ := hrow
    simp [hcols]
  rw [matSize_of_forall h1 h2]
  simp [matProd, hAlen]

theorem mmulJs_ok {A B : Mat} {n m k : ℕ} (hA : matSize A = some (n, m))
    (hB : matSize B = some (m, k)) : mmulJs A B = .ok (matProd A B) := by
  simp [mmulJs, hA, hB]

theorem mvmulJs_ok {A : Mat} {n m : ℕ} {v : List ℚ} (hA : matSize A = some (n, m))
    (hv : v.length = m) : mvmulJs A v = .ok (A.map (fun r => dotQ r v)) := by
  simp [mvmulJs, hA, hv]

theorem matSize_q2m (q : Quat) : matSize (quaternionToRotationMatrix q) = some (3, 3) := rfl

theorem list_length_three {α : Type} {l : List α} (h : l.length = 3) :
    ∃ a b c, l = [a, b, c] := by
  cases l with
  | nil => simp at h
  | cons a t =>
    cases t with
    | nil => simp at h
    | cons b t2 =>
      cases t2 with
      | nil => simp at h
      | cons c t3 =>
        cases t3 with
        | nil => exact ⟨a, b, c, rfl⟩
        | cons d t4 => simp at h

theorem rotationMatrixToQuaternion_ok (F : RM) {m : Mat} {k : ℕ}
    (hm : matSize m = some (3, k)) :
    ∃ q, rotationMatrixToQuaternion F m = .ok q := by
  obtain ⟨hlen, _⟩ := matSize_spec hm
  obtain ⟨r0, r1, r2, rfl⟩ := list_length_three hlen
  unfold rotationMatrixToQuaternion
  simp only [getRow, List.get?_cons_zero, List.get?_cons_succ, bind, Except.bind]
  split
  · exact ⟨_, rfl⟩
  · split
    · exact ⟨_, rfl⟩
    · split
      · exact ⟨_, rfl⟩
      · exact ⟨_, rfl⟩

theorem list_nine {α : Type} {l : List α} (h : 9 ≤ l.length) :
    ∃ a0 a1 a2 a3 a4 a5 a6 a7 a8 t,
      l = a0 :: a1 :: a2 :: a3 :: a4 :: a5 :: a6 :: a7 :: a8 :: t := by
  rcases l with _ | ⟨a0, l0⟩
  · simp at h
  rcases l0 with _ | ⟨a1, l1⟩
  · simp at h
  rcases l1 with _ | ⟨a2, l2⟩
  · simp at h
  rcases l2 with _ | ⟨a3, l3⟩
  · simp at h
  rcases l3 with _ | ⟨a4, l4⟩
  · simp at h
  rcases l4 with _ | ⟨a5, l5⟩
  · simp at h
  rcases l5 with _ | ⟨a6, l6⟩
  · simp at h
  rcases l6 with _ | ⟨a7, l7⟩
  · simp at h
  rcases l7 with _ | ⟨a8, t⟩
  · simp at h
  exact ⟨a0, a1, a2, a3, a4, a5, a6, a7, a8, t, rfl⟩

theorem parseAll_none {l : List (List Char)} {x : List Char} (hx : x ∈ l)
    (hnan : jsParseFloat x = none) : parseAll l = none := by
  induction l with
  | nil => simp at hx
  | cons a t ih =>
    rcases List.mem_cons.mp hx with rfl | hm
    · simp [parseAll, hnan]
    · cases ha : jsParseFloat a
      · simp [parseAll, ha]
      · simp [parseAll, ha, ih hm]

theorem specHemisphereSum_replicate_id (n : ℕ) :
    specHemisphereSum (List.replicate n ⟨0, 0, 0, 1⟩) = ⟨0, 0, 0, (n : ℚ)⟩ := by
  induction n with
  | zero => simp [specHemisphereSum]
  | succ n ih =>
    rw [List.replicate_succ, specHemisphereSum_cons, ih]
    norm_num [signCorrected, Quat.add, add_comm]

theorem pwfs_snd_eq (F : RM) (dev : List Char) (cb : WFCalib → Except String Unit)
    (samples : List WFSample) (h : samples ≠ []) :
    (processWorldFrameSamples F dev cb samples).2 = some {
      smpl2imu := transposeMatrix (quaternionToRotationMatrix
        (calculateAverageQuaternion F (samples.map (fun s => s.quaternion))))
      referenceDeviceId := dev
      referenceWorldQuat := calculateAverageQuaternion F (samples.map (fun s => s.quaternion))
      isCalibrated := true } := by
  unfold processWorldFrameSamples
  rw [if_neg (by simpa using h)]
  dsimp only
  split <;> rfl

/-! ### Claim theorems -/

/-- C1: for every observer and incoming sample, `applyCalibration` returns the
sample unchanged when the observer has no calibration record or no `smpl2imu`
matrix, and whenever the `try` block computing the world-frame transform
(steps 2–7) raises — e.g. on a malformed calibration record — the `catch`
returns the original unmodified sample.  The exception cannot propagate to the
fan-out loop: the embedded `applyCalibration` is a total function. -/
theorem c1_applyCalibration_passthrough (F : RM) (st : Store) (clientId : List Char)
    (deviceData : Sample) :
    (st clientId = none → applyCalibration F st clientId deviceData = (deviceData, none)) ∧
    (∀ cal, st clientId = some cal → cal.smpl2imu = none →
      applyCalibration F st clientId deviceData = (deviceData, none)) ∧
    (∀ cal M e, st clientId = some cal → cal.smpl2imu = some M →
      tryBody F cal M deviceData = .error e →
      applyCalibration F st clientId deviceData = (deviceData, none)) := by
  refine ⟨fun h => by simp [applyCalibration, h],
          fun cal h1 h2 => by simp [applyCalibration, h1, h2],
          fun cal M e h1 h2 h3 => by simp [applyCalibration, h1, h2, h3]⟩

/-- Witness for C1: a client-supplied 2×2 `smpl2imu` makes the mathjs multiply
throw inside the `try` block, and the sample passes through unchanged. -/
theorem c1_witness :
    tryBody F0 recBad [[1, 2], [3, 4]] sampleA = .error "DimensionError" ∧
    applyCalibration F0 storeBad ("c".data) sampleA = (sampleA, none) :=
  ⟨rfl, (c1_applyCalibration_passthrough F0 storeBad ("c".data) sampleA).2.2 recBad
    [[1, 2], [3, 4]] "DimensionError" rfl rfl rfl⟩

/-- C2: for a calibrated observer with a well-formed 3×3 `smpl2imu` (and any
stored device-to-bone matrices 3×3), `applyCalibration` augments the sample
and (1) its world quaternion is extracted from `smpl2imu × rot`, post-
multiplied by `device2bone[deviceKey]` exactly when that entry exists; (2) its
world accelerometer is `(smpl2imu × rot) × accelerometer` — the device-to-bone
matrix is never applied to acceleration — with the per-device offset
subtracted component-wise exactly when that offset exists; and (3) the same
transform and offset rule govern the world linear acceleration exactly when
the sample carries one. -/
theorem c2_applyCalibration_transform (F : RM) (st : Store) (clientId : List Char)
    (s : Sample) (cal : CalRecord) (M : Mat)
    (hrec : st clientId = some cal) (hM : cal.smpl2imu = some M)
    (hMsize : matSize M = some (3, 3))
    (hD : ∀ D, cal.device2boneMatrices (deviceKeyOf s) = some D → matSize D = some (3, 3))
    (hacc : s.accelerometer.length = 3)
    (hla : ∀ la, s.linear_acceleration = some la → la.length = 3) :
    ∃ aug, applyCalibration F st clientId s = (s, some aug) ∧
      rotationMatrixToQuaternion F (worldRotOf cal M s) = .ok aug.worldFrameQuaternion ∧
      aug.worldFrameAccelerometer =
        (match cal.accOffsets (deviceKeyOf s) with
         | some off => subOffset3 (accBase M s) off
         | none => accBase M s) ∧
      aug.worldFrameLinearAcceleration =
        (match s.linear_acceleration with
         | some la =>
           some (match cal.linearAccOffsets (deviceKeyOf s) with
             | some off => subOffset3 (linBase M s la) off
             | none => linBase M s la)
         | none => none) ∧
      aug.hasAccOffset = (cal.accOffsets (deviceKeyOf s)).isSome ∧
      aug.hasLinearAccOffset = (cal.linearAccOffsets (deviceKeyOf s)).isSome := by
  have hR := matSize_q2m s.quaternion
  have h1 := mmulJs_ok hMsize hR
  have hMR := matSize_matProd hMsize hR
  have hvacc := mvmulJs_ok hMR (by rw [hacc])
  have hbody : ∃ wq, tryBody F cal M s = .ok {
      worldFrameQuaternion := wq
      worldFrameQuatForViz := getVisualizationQuaternion wq cal.referenceWorldQuat
      worldFrameAccelerometer := (match cal.accOffsets (deviceKeyOf s) with
        | some off => subOffset3 (accBase M s) off
        | none => accBase M s)
      worldFrameLinearAcceleration := (match s.linear_acceleration with
        | some la => some (match cal.linearAccOffsets (deviceKeyOf s) with
            | some off => subOffset3 (linBase M s la) off
            | none => linBase M s la)
        | none => none)
      worldFrameEuler := quaternionToEuler F wq
      hasAccOffset := (cal.accOffsets (deviceKeyOf s)).isSome
      hasLinearAccOffset := (cal.linearAccOffsets (deviceKeyOf s)).isSome } ∧
      rotationMatrixToQuaternion F (worldRotOf cal M s) = .ok wq := by
    simp only [tryBody, worldRotOf, accBase, linBase, subOffset3, h1, bind, Except.bind]
    cases hd2b : cal.device2boneMatrices (deviceKeyOf s) with
    | none =>
      obtain ⟨wq, hwq⟩ := rotationMatrixToQuaternion_ok F hMR
      cases hlin : s.linear_acceleration with
      | none =>
        exact ⟨wq, by simp only [hwq, hvacc, pure, Except.pure], hwq⟩
      | some la =>
        have hvla := mvmulJs_ok hMR (by rw [hla la hlin])
        exact ⟨wq, by simp only [hwq, hvacc, hvla, pure, Except.pure], hwq⟩
    | some D =>
      have h2 := mmulJs_ok hMR (hD D hd2b)
      have hW := matSize_matProd hMR (hD D hd2b)
      obtain ⟨wq, hwq⟩ := rotationMatrixToQuaternion_ok F hW
      cases hlin : s.linear_acceleration with
      | none =>
        exact ⟨wq, by simp only [h2, hwq, hvacc, bind, Except.bind, pure, Except.pure], hwq⟩
      | some la =>
        have hvla := mvmulJs_ok hMR (by rw [hla la hlin])
        exact ⟨wq, by simp only [h2, hwq, hvacc, hvla, bind, Except.bind, pure, Except.pure],
          hwq⟩
  obtain ⟨wq, hb, hwq⟩ := hbody
  have happ : applyCalibration F st clientId s = (s, some {
      worldFrameQuaternion := wq
      worldFrameQuatForViz := getVisualizationQuaternion wq cal.referenceWorldQuat
      worldFrameAccelerometer := (match cal.accOffsets (deviceKeyOf s) with
        | some off => subOffset3 (accBase M s) off
        | none => accBase M s)
      worldFrameLinearAcceleration := (match s.linear_acceleration with
        | some la => some (match cal.linearAccOffsets (deviceKeyOf s) with
            | some off => subOffset3 (linBase M s la) off
            | none => linBase M s la)
        | none => none)
      worldFrameEuler := quaternionToEuler F wq
      hasAccOffset := (cal.accOffsets (deviceKeyOf s)).isSome
      hasLinearAccOffset := (cal.linearAccOffsets (deviceKeyOf s)).isSome }) := by
    simp [applyCalibration, hrec, hM, hb]
  exact ⟨_, happ, hwq, rfl, rfl, rfl, rfl⟩

/-- C4: `calculateAverageQuaternion` on any non-empty input equals the
normalisation of the hemisphere-corrected component-wise sum described by the
spec, and averaging the antipodal pair `[0,0,0,1]`, `[0,0,0,-1]` yields
`[0,0,0,1]` (for any interpretation whose `sqrt 4 = 2`, as IEEE `Math.sqrt`
has), not a cancelled result. -/
theorem c4_calculateAverageQuaternion (F : RM) :
    (∀ qs : List Quat, qs ≠ [] →
      calculateAverageQuaternion F qs = normalizeQuaternion F (specHemisphereSum qs)) ∧
    (F.sqrt 4 = 2 →
      calculateAverageQuaternion F [⟨0, 0, 0, 1⟩, ⟨0, 0, 0, -1⟩] = ⟨0, 0, 0, 1⟩) := by
  constructor
  · exact fun qs h => calculateAverageQuaternion_eq_spec F qs h
  · intro h
    rw [calculateAverageQuaternion_eq_spec F _ (by simp)]
    have hsum : specHemisphereSum [⟨0, 0, 0, 1⟩, ⟨0, 0, 0, -1⟩] = (⟨0, 0, 0, 2⟩ : Quat) := by
      norm_num [specHemisphereSum, Quat.add, Quat.negQ]
    rw [hsum]
    simp only [normalizeQuaternion]
    norm_num [h]

/-- Witness for C4 at the antipodal pair with a concrete interpretation. -/
theorem c4_witness :
    ([⟨0, 0, 0, 1⟩, ⟨0, 0, 0, -1⟩] : List Quat) ≠ [] ∧ F1.sqrt 4 = 2 ∧
    calculateAverageQuaternion F1 [⟨0, 0, 0, 1⟩, ⟨0, 0, 0, -1⟩] =
      normalizeQuaternion F1 (specHemisphereSum [⟨0, 0, 0, 1⟩, ⟨0, 0, 0, -1⟩]) ∧
    calculateAverageQuaternion F1 [⟨0, 0, 0, 1⟩, ⟨0, 0, 0, -1⟩] = ⟨0, 0, 0, 1⟩ :=
  ⟨by simp, by norm_num [F1],
   (c4_calculateAverageQuaternion F1).1 _ (by simp),
   (c4_calculateAverageQuaternion F1).2 (by norm_num [F1])⟩

/-- C7: whenever `sinp = 2*(w*y - z*x)` satisfies `|sinp| ≥ 1`, the pitch
returned by `quaternionToEuler` is exactly `Math.sign(sinp) * 90` degrees.
The clamped branch never consults the `asin` interpretation (the statement
holds for every `F`), so no `NaN` from an out-of-domain `asin` can appear; in
particular a quaternion corresponding to pitch +90° (here `[0, 1/2, 0, 1]`,
whose `sinp` is exactly 1) yields pitch exactly 90. -/
theorem c7_quaternionToEuler_clamp :
    (∀ (F : RM) (q : Quat), 1 ≤ |sinpOf q| →
      (quaternionToEuler F q).getD 1 0 = jsSign (sinpOf q) * 90) ∧
    (∀ F : RM, (quaternionToEuler F ⟨0, 1/2, 0, 1⟩).getD 1 0 = 90) := by
  constructor
  · intro F q h
    simp [quaternionToEuler, if_pos h]
  · intro F
    have h : (1 : ℚ) ≤ |sinpOf ⟨0, 1/2, 0, 1⟩| := by norm_num [sinpOf]
    simp [quaternionToEuler, if_pos h]
    norm_num [sinpOf, jsSign]

/-- Witness for C7 at the concrete quaternion `[0, 1, 0, 1]` with `sinp = 2`. -/
theorem c7_witness :
    (1 : ℚ) ≤ |sinpOf ⟨0, 1, 0, 1⟩| ∧
    (quaternionToEuler F0 ⟨0, 1, 0, 1⟩).getD 1 0 = jsSign (sinpOf ⟨0, 1, 0, 1⟩) * 90 :=
  ⟨by norm_num [sinpOf], c7_quaternionToEuler_clamp.1 F0 ⟨0, 1, 0, 1⟩ (by norm_num [sinpOf])⟩

/-- C8: processing `reset_calibration` twice leaves the store exactly as
processing it once does (the observer's record is absent either way), and
after a reset `applyCalibration` for that observer passes every sample through
unchanged. -/
theorem c8_clearCalibration_idempotent (st : Store) (clientId : List Char) :
    clearCalibration clientId (clearCalibration clientId st) = clearCalibration clientId st ∧
    clearCalibration clientId st clientId = none ∧
    ∀ (F : RM) (s : Sample),
      applyCalibration F (clearCalibration clientId st) clientId s = (s, none) := by
  refine ⟨?_, ?_, ?_⟩
  · funext k
    by_cases h : k = clientId <;> simp [clearCalibration, h]
  · simp [clearCalibration]
  · intro F s
    simp [applyCalibration, clearCalibration]

/-- C9: if the `try` block of `processTPoseSamples` raises (the completion
callback being the collaborator that can), the session step becomes
`worldFrameComplete` — the last successfully completed phase, not `idle` —
and the installed world-frame calibration is untouched. -/
theorem c9_processTPoseSamples_error (F : RM) (cb : TPoseResult → Except String Unit)
    (tposeSamples : List (List Char × List TPSample)) (sess : CalSession) (e : String)
    (herr : cb { device2boneMatrices := computeDevice2Bone F tposeSamples,
                 isTPoseCalibrated := true } = .error e) :
    processTPoseSamples F cb tposeSamples sess =
      { step := CalStep.worldFrameComplete, worldCalib := sess.worldCalib } ∧
    (processTPoseSamples F cb tposeSamples sess).step ≠ CalStep.idle := by
  have h1 : processTPoseSamples F cb tposeSamples sess =
      { step := CalStep.worldFrameComplete, worldCalib := sess.worldCalib } := by
    simp [processTPoseSamples, herr]
  refine ⟨h1, ?_⟩
  rw [h1]
  simp

/-- Witness for C9 with a callback that raises. -/
theorem c9_witness :
    processTPoseSamples F0 cbRaise [] sessWF =
      { step := CalStep.worldFrameComplete, worldCalib := sessWF.worldCalib } ∧
    (processTPoseSamples F0 cbRaise [] sessWF).step ≠ CalStep.idle :=
  c9_processTPoseSamples_error F0 cbRaise [] sessWF "boom" rfl

/-- C10: `setTPoseCalibration` for a client with no record leaves the store
completely unchanged (the T-pose data is discarded, no record is created) and
a subsequent `applyCalibration` for that client still passes every sample
through. -/
theorem c10_setTPoseCalibration_missing (st : Store) (clientId : List Char) (td : TPoseData)
    (h : st clientId = none) :
    setTPoseCalibration clientId td st = st ∧
    ∀ (F : RM) (s : Sample),
      applyCalibration F (setTPoseCalibration clientId td st) clientId s = (s, none) := by
  constructor
  · simp [setTPoseCalibration, h]
  · intro F s
    simp [setTPoseCalibration, h, applyCalibration]

/-- C3: when the collection window ends with at least one sample, the produced
calibration's `smpl2imu` is the transpose of `quaternionToRotationMatrix`
applied to the hemisphere-corrected average (normalised hemisphere-corrected
sum) of the collected quaternions; a stationary stream of 90 identity
quaternions yields the identity matrix (for any interpretation whose
`sqrt 8100 = 90`, as IEEE `Math.sqrt` has); and a window ending with zero
samples returns the session to `idle` producing no calibration data. -/
theorem c3_processWorldFrameSamples (F : RM) (dev : List Char)
    (cb : WFCalib → Except String Unit) :
    (∀ samples : List WFSample, samples ≠ [] →
      (processWorldFrameSamples F dev cb samples).2 = some {
        smpl2imu := transposeMatrix (quaternionToRotationMatrix
          (normalizeQuaternion F (specHemisphereSum (samples.map (fun s => s.quaternion)))))
        referenceDeviceId := dev
        referenceWorldQuat :=
          normalizeQuaternion F (specHemisphereSum (samples.map (fun s => s.quaternion)))
        isCalibrated := true }) ∧
    (F.sqrt 8100 = 90 → ∀ acc : List ℚ,
      ((processWorldFrameSamples F dev cb
          (List.replicate 90 ⟨⟨0, 0, 0, 1⟩, acc⟩)).2.map (fun cd => cd.smpl2imu)) =
        some idMat3) ∧
    processWorldFrameSamples F dev cb [] = (CalStep.idle, none) := by
  refine ⟨?_, ?_, rfl⟩
  · intro samples h
    rw [pwfs_snd_eq F dev cb samples h,
      calculateAverageQuaternion_eq_spec F _ (by simpa using h)]
  · intro hs acc
    rw [pwfs_snd_eq F dev cb _ (by simp)]
    have hmap : (List.replicate 90 (⟨⟨0, 0, 0, 1⟩, acc⟩ : WFSample)).map
        (fun s => s.quaternion) = List.replicate 90 ⟨0, 0, 0, 1⟩ := by
      simp
    rw [hmap]
    have havg : calculateAverageQuaternion F (List.replicate 90 (⟨0, 0, 0, 1⟩ : Quat)) =
        ⟨0, 0, 0, 1⟩ := by
      rw [calculateAverageQuaternion_eq_spec F _ (by simp),
        specHemisphereSum_replicate_id 90]
      simp only [normalizeQuaternion]
      norm_num [hs]
    rw [havg]
    simp only [Option.map_some']
    norm_num [transposeMatrix, quaternionToRotationMatrix, colsOf, colOf, idMat3,
      List.range_succ]

/-- Witness for C3: the identity stream with a concrete interpretation. -/
theorem c3_witness :
    F1.sqrt 8100 = 90 ∧
    ((processWorldFrameSamples F1 ("d".data) cbOk
        (List.replicate 90 ⟨⟨0, 0, 0, 1⟩, [0, 0, 0]⟩)).2.map (fun cd => cd.smpl2imu)) =
      some idMat3 :=
  ⟨by norm_num [F1],
   (c3_processWorldFrameSamples F1 ("d".data) cbOk).2.1 (by norm_num [F1]) [0, 0, 0]⟩

/-- Witness for C2 at a fully well-formed concrete record (identity
`smpl2imu`, identity device-to-bone, offsets present) and a sample carrying a
linear acceleration. -/
theorem c2_witness :
    ∃ aug, applyCalibration F0 storeGood ("c".data) sampleB = (sampleB, some aug) ∧
      rotationMatrixToQuaternion F0 (worldRotOf recGood idMat3 sampleB) =
        .ok aug.worldFrameQuaternion ∧
      aug.worldFrameAccelerometer =
        (match recGood.accOffsets (deviceKeyOf sampleB) with
         | some off => subOffset3 (accBase idMat3 sampleB) off
         | none => accBase idMat3 sampleB) ∧
      aug.worldFrameLinearAcceleration =
        (match sampleB.linear_acceleration with
         | some la =>
           some (match recGood.linearAccOffsets (deviceKeyOf sampleB) with
             | some off => subOffset3 (linBase idMat3 sampleB la) off
             | none => linBase idMat3 sampleB la)
         | none => none) ∧
      aug.hasAccOffset = (recGood.accOffsets (deviceKeyOf sampleB)).isSome ∧
      aug.hasLinearAccOffset = (recGood.linearAccOffsets (deviceKeyOf sampleB)).isSome :=
  c2_applyCalibration_transform F0 storeGood ("c".data) sampleB recGood idMat3 rfl rfl rfl
    (by intro D h; cases h; rfl) rfl (by intro la h; cases h; rfl)

/-- Counterexample to C5 as stated: a payload with a non-numeric field is not
rejected by `parseIOSMessage` when at least 9 numeric fields remain (the
unparsable token `x` is silently skipped), and a payload whose ninth field is
the non-finite `Infinity` is not rejected by `parseARGlassesMessage` (it only
checks `isNaN`, not `isFinite`).  Both parse to a non-null record where the
claim requires `null`. -/
theorem c5_counterexample :
    (parseIOSMessage ("d;t:1 2 3 4 5 6 7 8 9 x".data)).isSome = true ∧
    (parseARGlassesMessage ("1 2 3 4 5 6 7 8 Infinity".data)).isSome = true :=
  ⟨rfl, rfl⟩

/-- C5 as amended: both parsers are total (no exception can escape) and return
`null` on the empty payload; `parseIOSMessage` returns `null` when the trimmed
payload lacks a `;` or `:` delimiter and when fewer than 9 finite numeric
fields remain after skipping unparsable tokens; `parseARGlassesMessage`
returns `null` when there are fewer than 9 whitespace tokens and when any of
the first nine tokens parses to `NaN`.  (A non-numeric extra token does not
force `null` in the iOS parser, and the AR parser accepts non-finite
`Infinity` fields — see the counterexample.) -/
theorem c5_parser_rejection :
    parseIOSMessage [] = none ∧
    parseARGlassesMessage [] = none ∧
    (∀ msg : List Char,
      ((jsTrim msg).contains ';' = false ∨ (jsTrim msg).contains ':' = false) →
      parseIOSMessage msg = none) ∧
    (∀ msg d t ds, iosParts msg = some (d, t, ds) → (iosDataValues ds).length < 9 →
      parseIOSMessage msg = none) ∧
    (∀ msg : List Char, (wsTokens (jsTrim msg)).length < 9 →
      parseARGlassesMessage msg = none) ∧
    (∀ (msg : List Char) (i : ℕ), i < 9 →
      jsParseFloat ((wsTokens (jsTrim msg)).getD i []) = none →
      parseARGlassesMessage msg = none) := by
  refine ⟨rfl, rfl, ?_, ?_, ?_, ?_⟩
  · intro msg h
    have hcond : ((jsTrim msg).isEmpty || !(jsTrim msg).contains ';' ||
        !(jsTrim msg).contains ':') = true := by
      rcases h with h | h <;> rw [h] <;> simp
    have hp : iosParts msg = none := by
      unfold iosParts
      rw [hcond]
      rfl
    simp [parseIOSMessage, hp]
  · intro msg d t ds hp hlen
    simp [parseIOSMessage, hp, hlen]
  · intro msg h
    simp [parseARGlassesMessage, parseARFrom, h]
  · intro msg i hi hnan
    unfold parseARGlassesMessage
    by_cases hlen : (wsTokens (jsTrim msg)).length < 9
    · simp [parseARFrom, hlen]
    · push_neg at hlen
      obtain ⟨p0, p1, p2, p3, p4, p5, p6, p7, p8, t9, heq⟩ := list_nine hlen
      rw [heq] at hnan ⊢
      unfold parseARFrom
      rw [if_neg (by simp only [List.length_cons]; omega)]
      interval_cases i
      · simp only [List.getD_cons_zero] at hnan
        simp [hnan]
      · simp only [List.getD_cons_succ, List.getD_cons_zero] at hnan
        cases h0 : jsParseFloat p0 <;> simp [h0, hnan]
      · simp only [List.getD_cons_succ, List.getD_cons_zero] at hnan
        have hq : parseAll [p2, p3, p4, p5] = none := parseAll_none (by simp) hnan
        cases h0 : jsParseFloat p0 <;> cases h1 : jsParseFloat p1 <;>
          simp [h0, h1, hq, List.take_succ_cons, List.drop_succ_cons]
      · simp only [List.getD_cons_succ, List.getD_cons_zero] at hnan
        have hq : parseAll [p2, p3, p4, p5] = none := parseAll_none (by simp) hnan
        cases h0 : jsParseFloat p0 <;> cases h1 : jsParseFloat p1 <;>
          simp [h0, h1, hq, List.take_succ_cons, List.drop_succ_cons]
      · simp only [List.getD_cons_succ, List.getD_cons_zero] at hnan
        have hq : parseAll [p2, p3, p4, p5] = none := parseAll_none (by simp) hnan
        cases h0 : jsParseFloat p0 <;> cases h1 : jsParseFloat p1 <;>
          simp [h0, h1, hq, List.take_succ_cons, List.drop_succ_cons]
      · simp only [List.getD_cons_succ, List.getD_cons_zero] at hnan
        have hq : parseAll [p2, p3, p4, p5] = none := parseAll_none (by simp) hnan
        cases h0 : jsParseFloat p0 <;> cases h1 : jsParseFloat p1 <;>
          simp [h0, h1, hq, List.take_succ_cons, List.drop_succ_cons]
      · simp only [List.getD_cons_succ, List.getD_cons_zero] at hnan
        have ha3 : parseAll [p6, p7, p8] = none := parseAll_none (by simp) hnan
        cases h0 : jsParseFloat p0 <;> cases h1 : jsParseFloat p1 <;>
          cases hq : parseAll [p2, p3, p4, p5] <;>
          simp [h0, h1, hq, ha3, List.take_succ_cons, List.drop_succ_cons]
      · simp only [List.getD_cons_succ, List.getD_cons_zero] at hnan
        have ha3 : parseAll [p6, p7, p8] = none := parseAll_none (by simp) hnan
        cases h0 : jsParseFloat p0 <;> cases h1 : jsParseFloat p1 <;>
          cases hq : parseAll [p2, p3, p4, p5] <;>
          simp [h0, h1, hq, ha3, List.take_succ_cons, List.drop_succ_cons]
      · simp only [List.getD_cons_succ, List.getD_cons_zero] at hnan
        have ha3 : parseAll [p6, p7, p8] = none := parseAll_none (by simp) hnan
        cases h0 : jsParseFloat p0 <;> cases h1 : jsParseFloat p1 <;>
          cases hq : parseAll [p2, p3, p4, p5] <;>
          simp [h0, h1, hq, ha3, List.take_succ_cons, List.drop_succ_cons]

/-- Witness for C5 (amended): a payload whose third token is non-numeric makes
the AR parser return `null`. -/
theorem c5_witness :
    (2 : ℕ) < 9 ∧
    jsParseFloat ((wsTokens (jsTrim ("1 2 x 4 5 6 7 8 9".data))).getD 2 []) = none ∧
    parseARGlassesMessage ("1 2 x 4 5 6 7 8 9".data) = none :=
  ⟨by norm_num, rfl,
   c5_parser_rejection.2.2.2.2.2 ("1 2 x 4 5 6 7 8 9".data) 2 (by norm_num) rfl⟩

/-- C6 (code bug): feeding the 12-field iOS payload
`"dev1;phone:100 200 0.5 0.6 9.8 0 0 0 1 0.1 0.2 0.3"` through
`parseIOSMessage` and the processor's iOS branch yields a delivered sample
whose gyroscope is the parsed `[0.1, 0.2, 0.3]` but whose `has_gyro` flag is
`false`: `parseIOSMessage` never sets `has_gyro` on the raw record, so
`processIOSData`'s `!!rawData.has_gyro` is always `false`, contradicting the
gyroscope-availability tagging the rest of the code (server capability log,
frontend gyro display) relies on. -/
theorem c6_has_gyro_always_false (F : RM) :
    ((parseIOSMessage msgC6).bind (fun raw => processDeviceData F raw)).map
      (fun s => (s.has_gyro, s.gyroscope)) =
      some (false, [1/10, 1/5, 3/10]) := by
  have key : ((parseIOSMessage msgC6).bind (fun raw => processDeviceData F raw)).map
      (fun s => (s.has_gyro, s.gyroscope)) =
      some (false,
        [(((0 : ℕ) : ℚ) + ((1 : ℕ) : ℚ) / (10 : ℚ) ^ 1) * (10 : ℚ) ^ (0 : ℤ),
         (((0 : ℕ) : ℚ) + ((2 : ℕ) : ℚ) / (10 : ℚ) ^ 1) * (10 : ℚ) ^ (0 : ℤ),
         (((0 : ℕ) : ℚ) + ((3 : ℕ) : ℚ) / (10 : ℚ) ^ 1) * (10 : ℚ) ^ (0 : ℤ)]) := rfl
  rw [key]
  norm_num

/-- Witness for C10 on the empty store. -/
theorem c10_witness :
    setTPoseCalibration ("c".data) tdEmpty emptyStore = emptyStore ∧
    applyCalibration F0 (setTPoseCalibration ("c".data) tdEmpty emptyStore) ("c".data) sampleA =
      (sampleA, none) :=
  ⟨(c10_setTPoseCalibration_missing emptyStore ("c".data) tdEmpty rfl).1,
   (c10_setTPoseCalibration_missing emptyStore ("c".data) tdEmpty rfl).2 F0 sampleA⟩

end IMUViz
